import Mathlib

/-
Verification of the HTML-to-Markdown converter (html_to_markdown_converter.py).

The converter's pure core is embedded shallowly: the parsed HTML document is a
tree of elements, the regex rewrites of the Markdown normalizer are
character-list scans with the same left-to-right, leftmost-match semantics as
re.sub, and the external effects (the system clock read by datetime.now, the
base64 decode, the file writes, and the three conversion backends' I/O) are
made explicit arguments or returned ledgers.
-/

/-- Whitespace characters, restricted to ASCII: the characters the regex class
backslash-s matches and str.strip and str.rstrip remove. -/
def wsChar (c : Char) : Bool :=
  c = ' ' || c = '\t' || c = '\n' || c = '\r' || c = '\x0b' || c = '\x0c'

/-- Contiguous-sublist test on character lists. -/
def listInfixOf (needle : List Char) : List Char → Bool
  | [] => needle.isEmpty
  | c :: cs => needle.isPrefixOf (c :: cs) || listInfixOf needle cs

/-- Python's substring test, the in operator on strings. -/
def substrOf (needle hay : String) : Bool :=
  listInfixOf needle.toList hay.toList

/-- Python's str.startswith. -/
def strStartsWith (p s : String) : Bool :=
  p.toList.isPrefixOf s.toList

/-- Drop trailing characters satisfying p. -/
def dropTrailing (p : Char → Bool) (l : List Char) : List Char :=
  (l.reverse.dropWhile p).reverse

/-- Python str.strip on a character list: remove leading and trailing
whitespace. -/
def stripList (l : List Char) : List Char :=
  dropTrailing wsChar (l.dropWhile wsChar)

/-- Python str.strip. -/
def pyStrip (s : String) : String :=
  String.mk (stripList s.toList)

/-- State-machine form of clean_markdown's first rewrite (line 283), the
re.sub collapsing three or more consecutive newlines to two: k counts the
newlines already read of the current run, and each maximal run of k newlines
is emitted as min k 2 newlines. -/
def collapseNLAux : Nat → List Char → List Char
  | k, [] => List.replicate (min k 2) '\n'
  | k, c :: cs =>
    if c = '\n' then collapseNLAux (k + 1) cs
    else List.replicate (min k 2) '\n' ++ c :: collapseNLAux 0 cs

/-- clean_markdown's first rewrite: collapse newline runs of length three or
more to exactly two. -/
def collapseNL (l : List Char) : List Char := collapseNLAux 0 l

/-- Match clean_markdown's empty-fence pattern (line 286: three backticks, a
whitespace run, three backticks) at the head of the list, returning the
remainder after the match.  The greedy whitespace star can only end at the end
of the maximal whitespace run, because a backtick is not whitespace, so taking
the maximal run is faithful to the regex's backtracking. -/
def matchFence : List Char → Option (List Char)
  | '`' :: '`' :: '`' :: rest =>
    match rest.dropWhile wsChar with
    | '`' :: '`' :: '`' :: rest2 => some rest2
    | _ => none
  | _ => none

/-- Left-to-right re.sub scan deleting empty-fence matches: a match is removed
and scanning resumes after it; otherwise the scan advances one character.  The
fuel argument, initialised to the list length (an upper bound on the step
count, every step consuming at least one character), makes the recursion
structural; fuel 0 is never reached from removeFences. -/
def removeFencesAux : Nat → List Char → List Char
  | 0, l => l
  | _ + 1, [] => []
  | fuel + 1, c :: cs =>
    match matchFence (c :: cs) with
    | some rest => removeFencesAux fuel rest
    | none => c :: removeFencesAux fuel cs

/-- clean_markdown's second rewrite: remove empty fenced code blocks. -/
def removeFences (l : List Char) : List Char := removeFencesAux l.length l

/-- Match the group of clean_markdown's third rewrite (line 289: one to six
hash signs followed by one whitespace character) at the head of the list.
Greedy repetition of the hash sign can only end at the end of the maximal hash
run, so the group matches exactly when that run has length 1..6 and the next
character is whitespace.  Returns (matched group, remainder). -/
def matchHeadingMark (l : List Char) : Option (List Char × List Char) :=
  let hs := l.takeWhile (· = '#')
  if 1 ≤ hs.length ∧ hs.length ≤ 6 then
    match l.dropWhile (· = '#') with
    | c :: rest => if wsChar c then some (hs ++ [c], rest) else none
    | [] => none
  else none

/-- Left-to-right re.sub scan of the third rewrite: a newline run followed by
a heading group is replaced by exactly two newlines and the group, and
scanning resumes after the whole match; otherwise the scan advances one
character.  Fuel as in removeFencesAux. -/
def fixHeadingsAux : Nat → List Char → List Char
  | 0, l => l
  | _ + 1, [] => []
  | fuel + 1, c :: cs =>
    if c = '\n' then
      match matchHeadingMark ((c :: cs).dropWhile (· = '\n')) with
      | some gr => '\n' :: '\n' :: (gr.1 ++ fixHeadingsAux fuel gr.2)
      | none => c :: fixHeadingsAux fuel cs
    else c :: fixHeadingsAux fuel cs

/-- clean_markdown's third rewrite: exactly one blank line before a heading
marker. -/
def fixHeadings (l : List Char) : List Char := fixHeadingsAux l.length l

/-- Python str.split on the newline character. -/
def splitNL : List Char → List (List Char)
  | [] => [[]]
  | c :: cs =>
    if c = '\n' then [] :: splitNL cs
    else
      match splitNL cs with
      | [] => [[c]]
      | p :: ps => (c :: p) :: ps

/-- Python newline join of character-list lines. -/
def joinNL : List (List Char) → List Char
  | [] => []
  | [p] => p
  | p :: q :: ps => p ++ '\n' :: joinNL (q :: ps)

/-- Python line.rstrip(). -/
def rstripLine (l : List Char) : List Char := dropTrailing wsChar l

/-- clean_markdown's fourth step (lines 292-293): split into lines, strip each
line's trailing whitespace, rejoin. -/
def rstripLines (l : List Char) : List Char :=
  joinNL ((splitNL l).map rstripLine)

/-- The Markdown Normalizer clean_markdown (lines 280-295): collapse newline
runs of three or more to two, delete empty fenced code blocks, force exactly
one blank line before each heading marker, strip trailing whitespace from
every line, and strip the whole text. -/
def clean_markdown (s : String) : String :=
  String.mk (stripList (rstripLines (fixHeadings (removeFences (collapseNL s.toList)))))

/-- Three consecutive newlines occur somewhere in the list. -/
def hasTripleNL : List Char → Bool
  | c1 :: c2 :: c3 :: cs =>
    (c1 == '\n' && c2 == '\n' && c3 == '\n') || hasTripleNL (c2 :: c3 :: cs)
  | _ => false

/-- The empty-fence pattern matches at some position of the removeFences
scan. -/
def hasFenceMatch : List Char → Bool
  | [] => false
  | c :: cs => (matchFence (c :: cs)).isSome || hasFenceMatch cs

/-- Mirror of the fixHeadingsAux scan: true when some newline run the heading
rewrite touches has length other than two. -/
def badHeadingRunAux : Nat → List Char → Bool
  | 0, _ => false
  | _ + 1, [] => false
  | fuel + 1, c :: cs =>
    if c = '\n' then
      match matchHeadingMark ((c :: cs).dropWhile (· = '\n')) with
      | some gr =>
        !(((c :: cs).takeWhile (· = '\n')).length == 2) || badHeadingRunAux fuel gr.2
      | none => badHeadingRunAux fuel cs
    else badHeadingRunAux fuel cs

/-- Some newline run immediately preceding a heading group has length other
than two. -/
def badHeadingRun (l : List Char) : Bool := badHeadingRunAux l.length l

/-- The last character, if any, is not whitespace. -/
def lastNotWS (l : List Char) : Bool :=
  match l.getLast? with
  | none => true
  | some c => !wsChar c

/-- The first character, if any, is not whitespace. -/
def headNotWS (l : List Char) : Bool :=
  match l.head? with
  | none => true
  | some c => !wsChar c

/-- No line of the text carries trailing whitespace. -/
def noTrailWS (l : List Char) : Bool :=
  (splitNL l).all lastNotWS

/-- The text carries no leading and no trailing whitespace. -/
def isStrippedL (l : List Char) : Bool := headNotWS l && lastNotWS l

/-- Element tree of the parsed HTML document, the BeautifulSoup view the
converter uses: a tag with attributes and ordered children, or a text node.
Attribute values, the class attribute included, are kept as their raw text. -/
inductive Node where
  | text (s : String)
  | elem (tag : String) (attrs : List (String × String)) (children : List Node)

mutual

/-- BeautifulSoup get_text(): concatenation of all text descendants in
document order. -/
def getText : Node → String
  | .text s => s
  | .elem _ _ cs => getTextList cs

/-- get_text over a child list. -/
def getTextList : List Node → String
  | [] => ""
  | c :: cs => getText c ++ getTextList cs

end

mutual

/-- All descendants of a node in document order (preorder), each paired with
the tag name of its direct parent; the node itself is not included, matching
BeautifulSoup's find_all scope. -/
def descWP : Node → List (String × Node)
  | .text _ => []
  | .elem t _ cs => descWPList t cs

/-- Descendants-with-parent over a child list whose parent has tag pt. -/
def descWPList (pt : String) : List Node → List (String × Node)
  | [] => []
  | c :: cs => (pt, c) :: (descWP c ++ descWPList pt cs)

end

/-- The tag test: an element node with the given name. -/
def tagIs (t : String) : Node → Bool
  | .elem tg _ _ => tg == t
  | .text _ => false

/-- Attribute lookup, Tag.get(key): the first binding of the key, if any. -/
def getAttr (n : Node) (k : String) : Option String :=
  match n with
  | .text _ => none
  | .elem _ attrs _ => (attrs.find? (fun p => p.1 == k)).map (fun p => p.2)

/-- Tag.get(key, default). -/
def attrD (n : Node) (k d : String) : String := (getAttr n k).getD d

/-- Direct children; find_all with recursive=False scans exactly these. -/
def directChildren : Node → List Node
  | .text _ => []
  | .elem _ _ cs => cs

/-- find_all with a node predicate: the matching descendants in document
order. -/
def findAll (p : Node → Bool) (n : Node) : List Node :=
  ((descWP n).map Prod.snd).filter p

/-- soup.find: the first matching descendant. -/
def findFirst (p : Node → Bool) (n : Node) : Option Node :=
  (findAll p n).head?

/-- A th or td element (a table cell). -/
def thtd (n : Node) : Bool := tagIs "th" n || tagIs "td" n

/-- One Markdown table row (line 236): the stripped cell texts joined with
pipes. -/
def rowLine (cells : List Node) : String :=
  "| " ++ String.intercalate " | " (cells.map (fun c => pyStrip (getText c))) ++ " |"

/-- The header separator line (line 241): one dash cell per column. -/
def sepLine (n : Nat) : String :=
  "| " ++ String.intercalate " | " (List.replicate n "---") ++ " |"

/-- The enumerate loop of convert_table_to_markdown (lines 229-242), carrying
the row index i: rows without th/td cells are skipped, and the separator is
appended only after the row at index 0 when that row has a th descendant. -/
def convert_table_loop : List Node → Nat → List String
  | [], _ => []
  | row :: rest, i =>
    let cells := findAll thtd row
    if cells.isEmpty then convert_table_loop rest (i + 1)
    else
      rowLine cells ::
        ((if i == 0 && !(findAll (tagIs "th") row).isEmpty then [sepLine cells.length]
          else []) ++
          convert_table_loop rest (i + 1))

/-- convert_table_to_markdown (lines 221-244). -/
def convert_table_to_markdown (table : Node) : List String :=
  let rows := findAll (tagIs "tr") table
  if rows.isEmpty then [] else convert_table_loop rows 0

/-- The Table Renderer contract in the claim's own shape: one pipe line per
row with at least one th/td cell, zero-cell rows skipped, and, exactly when
the first row contains a th, a separator of one dash cell per first-row cell
immediately after the first row's line. -/
def tableRendererSpec (table : Node) : List String :=
  match findAll (tagIs "tr") table with
  | [] => []
  | r0 :: rest =>
    let firstCells := findAll thtd r0
    (if firstCells.isEmpty then []
     else
       rowLine firstCells ::
         (if !(findAll (tagIs "th") r0).isEmpty then [sepLine firstCells.length] else [])) ++
      rest.flatMap (fun row =>
        let cells := findAll thtd row
        if cells.isEmpty then [] else [rowLine cells])

/-- Python data_url.split on the first comma: the text before it and the rest,
or failure when no comma occurs (the tuple unpacking of line 250 then
raises). -/
def splitFirstComma : List Char → Option (List Char × List Char)
  | [] => none
  | c :: cs =>
    if c = ',' then some ([], cs)
    else (splitFirstComma cs).map (fun p => (c :: p.1, p.2))

/-- Extension choice of extract_base64_image (lines 252-260): substring match
on the part before the comma, png before jpeg/jpg before svg, defaulting to
png. -/
def imageExt (header : String) : String :=
  if substrOf "png" header then "png"
  else if substrOf "jpeg" header || substrOf "jpg" header then "jpg"
  else if substrOf "svg" header then "svg"
  else "png"

/-- Python 03d formatting: decimal digits zero-padded to width three. -/
def pad3 (n : Nat) : String :=
  let s := toString n
  if s.length < 3 then String.mk (List.replicate (3 - s.length) '0') ++ s else s

/-- extract_base64_image (lines 246-278).  The base64 decode and the file
write are external effects; decode_ok applied to the payload abstracts their
joint success.  On success the value is the relative path images/<filename>
with filename image_<padded counter>.<ext>; any failure (no comma in the data
URL, decode error, write error) yields none and no write. -/
def extract_base64_image (decode_ok : String → Bool) (data_url : String) (counter : Nat) :
    Option String :=
  match splitFirstComma data_url.toList with
  | none => none
  | some hd =>
    if decode_ok (String.mk hd.2) then
      some ("images/" ++ ("image_" ++ pad3 counter ++ "." ++ imageExt (String.mk hd.1)))
    else none

/-- The per-element code rule of process_cell_to_markdown (lines 167-181),
given the tag of the element's direct parent: elements sitting directly in a
pre are skipped; otherwise multi-line or over-50-character text becomes a
fenced block around the stripped text, anything else inline code. -/
def code_rule (parentTag : String) (n : Node) : List String :=
  if parentTag = "pre" then []
  else
    let t := getText n
    if t.toList.contains '\n' ∨ t.length > 50 then ["```", pyStrip t, "```"]
    else ["`" ++ pyStrip t ++ "`"]

/-- The image loop of process_cell_to_markdown (lines 184-200), threading the
function-local image counter: returns (markdown lines, relative paths of the
images written).  A successful extraction appends the reference and advances
the counter; a failed one appends nothing and leaves the counter unchanged;
with extraction disabled a data URI becomes an italic placeholder; any other
src becomes a plain image reference. -/
def handle_images (decode_ok : String → Bool) (extract_images : Bool) :
    List Node → Nat → List String × List String
  | [], _ => ([], [])
  | img :: rest, counter =>
    let src := attrD img "src" ""
    let alt := attrD img "alt" "Image"
    if strStartsWith "data:image/" src then
      if extract_images then
        match extract_base64_image decode_ok src counter with
        | some p =>
          let r := handle_images decode_ok extract_images rest (counter + 1)
          (("![" ++ alt ++ "](" ++ p ++ ")") :: r.1, p :: r.2)
        | none => handle_images decode_ok extract_images rest counter
      else
        let r := handle_images decode_ok extract_images rest counter
        (("*[Image: " ++ alt ++ "]*") :: r.1, r.2)
    else
      let r := handle_images decode_ok extract_images rest counter
      (("![" ++ alt ++ "](" ++ src ++ ")") :: r.1, r.2)

/-- The heading rule (lines 160-163): for each level 1..6 in order, every
heading element of that level anywhere below the cell yields one line of
hashes and stripped text. -/
def heading_lines (cell : Node) : List String :=
  (List.range 6).flatMap (fun i =>
    (findAll (tagIs ("h" ++ toString (i + 1))) cell).map (fun h =>
      String.mk (List.replicate (i + 1) '#') ++ " " ++ pyStrip (getText h)))

/-- An element containing a table, img, pre or code descendant (line 212). -/
def specialInside (n : Node) : Bool :=
  !(findAll (fun m =>
      tagIs "table" m || tagIs "img" m || tagIs "pre" m || tagIs "code" m) n).isEmpty

/-- The plain-text rule (lines 210-217): direct p/div children without special
descendants contribute their stripped text when it is nonempty. -/
def text_lines (cell : Node) : List String :=
  ((directChildren cell).filter (fun e => tagIs "p" e || tagIs "div" e)).flatMap (fun e =>
    if specialInside e then []
    else
      let t := pyStrip (getText e)
      if t == "" then [] else [t])

/-- process_cell_to_markdown (lines 155-219), extended with the ledger of
images written during the render: returns (markdown lines, relative image
paths).  The rules run in source order: headings, code, images, tables,
direct-child text. -/
def process_cell_to_markdown (decode_ok : String → Bool) (cell : Node)
    (image_counter : Nat) (extract_images : Bool) : List String × List String :=
  let codeElems := (descWP cell).filter (fun pn => tagIs "pre" pn.2 || tagIs "code" pn.2)
  let imgs := handle_images decode_ok extract_images (findAll (tagIs "img") cell) image_counter
  (heading_lines cell ++
      codeElems.flatMap (fun pn => code_rule pn.1 pn.2) ++
      imgs.1 ++
      (findAll (tagIs "table") cell).flatMap convert_table_to_markdown ++
      text_lines cell,
    imgs.2)

/-- The cell heuristic (line 119): div elements whose class text contains
jp-Cell, cell or output.  BeautifulSoup applies the class filter to each class
token; no marker contains a space, so a token contains a marker exactly when
the raw class text does, and the raw text is matched here. -/
def cellClassMatch (n : Node) : Bool :=
  tagIs "div" n &&
    (match getAttr n "class" with
     | some c => substrOf "jp-Cell" c || substrOf "cell" c || substrOf "output" c
     | none => false)

/-- The Document Walker (lines 119-123): the matching divs, or on an empty
result the first body element, or the whole document. -/
def walkCells (doc : Node) : List Node :=
  let cells := findAll cellClassMatch doc
  if cells.isEmpty then
    match findFirst (tagIs "body") doc with
    | some b => [b]
    | none => [doc]
  else cells

/-- Title text (lines 105-106): the first title element's text, else the
fixed fallback. -/
def titleText (doc : Node) : String :=
  match findFirst (tagIs "title") doc with
  | some t => getText t
  | none => "Notebook Export"

/-- The fixed preamble (lines 109-116); now is the strftime-formatted
datetime.now() reading, made an explicit argument. -/
def preambleLines (doc : Node) (now : String) : List String :=
  ["# " ++ titleText doc, "", "*Exported on " ++ now ++ "*", "", "---", ""]

/-- The cell loop of convert_html_to_markdown_custom (lines 128-132) as its
guard evidently intends: a cell whose render produced no lines contributes
nothing, any other cell contributes its lines and one separating empty line;
written images accumulate regardless, because the writes happen during the
render.  Each iteration passes image counter 0 exactly as the source does:
the counter is an int passed by value, incremented only locally inside
process_cell_to_markdown and never written back, so every cell's render
restarts it at 0.  In the source the guard is the strip method called on
cell_markdown, which is a list, raising AttributeError; the faithful outcome
is in convert_html_to_markdown_custom below. -/
def assembleLoop (decode_ok : String → Bool) (extract_images : Bool) :
    List Node → List String × List String
  | [] => ([], [])
  | cell :: rest =>
    let r := process_cell_to_markdown decode_ok cell 0 extract_images
    let r2 := assembleLoop decode_ok extract_images rest
    ((if r.1.isEmpty then r2.1 else r.1 ++ "" :: r2.1), r.2 ++ r2.2)

/-- The markdown_lines list the custom converter assembles (lines 109-132):
the preamble followed by the cell blocks. -/
def custom_markdown_lines (doc : Node) (now : String) (extract_images : Bool)
    (decode_ok : String → Bool) : List String :=
  preambleLines doc now ++ (assembleLoop decode_ok extract_images (walkCells doc)).1

/-- The relative paths of the image files the custom conversion writes, in
order. -/
def custom_image_files (doc : Node) (extract_images : Bool)
    (decode_ok : String → Bool) : List String :=
  (assembleLoop decode_ok extract_images (walkCells doc)).2

/-- The markdown text of lines 135-136: the joined lines passed through
clean_markdown. -/
def custom_markdown_content (doc : Node) (now : String) (extract_images : Bool)
    (decode_ok : String → Bool) : String :=
  clean_markdown (String.intercalate "\n" (custom_markdown_lines doc now extract_images decode_ok))

/-- convert_html_to_markdown_custom (lines 85-153) as executed: when the
walker yields at least one cell, the first loop iteration calls the strip
method on the list process_cell_to_markdown returned (line 130), which raises
AttributeError; the handler at line 151 catches it and the function returns
None - after the first cell's images were already written.  Only with zero
cells, which walkCells never yields, would the loop be skipped and the
preamble-only markdown written; the success value here is that written
content.  Returns (result, written image paths). -/
def convert_html_to_markdown_custom (doc : Node) (now : String)
    (extract_images : Bool) (decode_ok : String → Bool) : Option String × List String :=
  match walkCells doc with
  | [] => (some (clean_markdown (String.intercalate "\n" (preambleLines doc now))), [])
  | c :: _ => (none, (process_cell_to_markdown decode_ok c 0 extract_images).2)

/-- Python truthiness of a backend's return value, None or a path string. -/
def pyTruthy : Option String → Bool
  | none => false
  | some s => !(s == "")

/-- auto_convert_notebook_html (lines 297-336).  The three backends perform
I/O and are abstracted by the values they return; the second component
records which backends the call attempts, in order.  The input-existence
check of lines 308-311 precedes every backend attempt. -/
def auto_convert_notebook_html (input_exists : Bool) (method : String)
    (pandoc markdownify custom : Option String) : Option String × List String :=
  if input_exists then
    if method = "auto" then
      if pyTruthy pandoc then (pandoc, ["pandoc"])
      else if pyTruthy markdownify then (markdownify, ["pandoc", "markdownify"])
      else (custom, ["pandoc", "markdownify", "custom"])
    else if method = "pandoc" then (pandoc, ["pandoc"])
    else if method = "markdownify" then (markdownify, ["markdownify"])
    else if method = "custom" then (custom, ["custom"])
    else (none, [])
  else (none, [])

/-- A well-formed document with no cell-marker classes: title T, one
paragraph. -/
def exNoCellDoc : Node :=
  Node.elem "html" []
    [Node.elem "head" [] [Node.elem "title" [] [Node.text "T"]],
     Node.elem "body" [] [Node.elem "p" [] [Node.text "hello"]]]

/-- A png data URI with payload AAAA. -/
def pngDataURI : String := "data:image/png;base64,AAAA"

/-- A document with two marked cells, each holding one embedded png image. -/
def exTwoCellDoc : Node :=
  Node.elem "html" []
    [Node.elem "body" []
      [Node.elem "div" [("class", "cell")]
        [Node.elem "img" [("src", pngDataURI), ("alt", "a")] []],
       Node.elem "div" [("class", "cell")]
        [Node.elem "img" [("src", pngDataURI), ("alt", "b")] []]]]

/-- A minimal document: one paragraph in a body. -/
def exSimpleDoc : Node :=
  Node.elem "html" [] [Node.elem "body" [] [Node.elem "p" [] [Node.text "hi"]]]

/-- A code element with short single-line content. -/
def exCodeNode : Node := Node.elem "code" [] [Node.text "x = 1"]

/-- C1: in auto mode the Backend Selector attempts pandoc, then markdownify,
then custom, in that order; the first attempt returning a non-empty path wins
and no later backend is attempted (the attempt trace stops at the winner);
and when all three attempts fail the result is the failure value None. -/
theorem auto_mode_first_nonempty_backend_wins (p m c : Option String) :
    (pyTruthy p = true →
      auto_convert_notebook_html true "auto" p m c = (p, ["pandoc"])) ∧
    (pyTruthy p = false → pyTruthy m = true →
      auto_convert_notebook_html true "auto" p m c = (m, ["pandoc", "markdownify"])) ∧
    (pyTruthy p = false → pyTruthy m = false →
      auto_convert_notebook_html true "auto" p m c = (c, ["pandoc", "markdownify", "custom"])) ∧
    (p = none → m = none → c = none →
      (auto_convert_notebook_html true "auto" p m c).1 = none) := by
  refine ⟨?_, ?_, ?_, ?_⟩
  · intro h1
    simp [auto_convert_notebook_html, h1]
  · intro h1 h2
    simp [auto_convert_notebook_html, h1, h2]
  · intro h1 h2
    simp [auto_convert_notebook_html, h1, h2]
  · intro h1 h2 h3
    subst h1; subst h2; subst h3
    simp [auto_convert_notebook_html, pyTruthy]

/-- Witness for C1: with pandoc failing (None) and markdownify returning a
non-empty path, auto mode returns markdownify's path and attempts exactly the
first two backends. -/
theorem auto_mode_first_nonempty_backend_wins_check :
    (pyTruthy (none : Option String) = false ∧ pyTruthy (some "x.md") = true) ∧
    auto_convert_notebook_html true "auto" none (some "x.md") none =
      (some "x.md", ["pandoc", "markdownify"]) :=
  ⟨⟨by decide, by decide⟩,
    (auto_mode_first_nonempty_backend_wins none (some "x.md") none).2.1 (by decide) (by decide)⟩

/-- C9: for every mode string, a missing input file makes the entry point
return the failure value None with an empty attempt trace: no backend is
attempted. -/
theorem missing_input_fails_before_backends (method : String) (p m c : Option String) :
    auto_convert_notebook_html false method p m c = (none, []) := by
  simp [auto_convert_notebook_html]

/-- C2 (code bug): on a well-formed document with no cell-marker classes the
walker does fall back to the single body cell, but the custom conversion then
fails (the loop guard calls the strip method on a list, raising
AttributeError), returning None instead of non-empty Markdown. -/
theorem walker_fallback_yields_body_but_conversion_fails :
    walkCells exNoCellDoc = [Node.elem "body" [] [Node.elem "p" [] [Node.text "hello"]]] ∧
    (convert_html_to_markdown_custom exNoCellDoc "2024-01-01 00:00:00" true
        (fun _ => true)).1 = none :=
  ⟨rfl, rfl⟩

/-- C3 (code bug): with two cells each holding one embedded png image, the
per-cell restart of the image counter names both written assets
images/image_000.png, so the written-file list is not duplicate-free. -/
theorem image_counter_reset_duplicates_filenames :
    custom_image_files exTwoCellDoc true (fun _ => true) =
      ["images/image_000.png", "images/image_000.png"] ∧
    ¬ (custom_image_files exTwoCellDoc true (fun _ => true)).Nodup :=
  ⟨rfl, by decide⟩

/-- C5 (code bug): two runs of the custom pipeline on the same input never
produce Markdown output at all (both return None because the loop guard
raises), and the content the pipeline assembles before failing embeds the
clock reading, so runs at different times assemble different bytes. -/
theorem custom_pipeline_writes_nothing_and_content_depends_on_clock :
    (convert_html_to_markdown_custom exSimpleDoc "2024-01-01 10:00:00" true
        (fun _ => true)).1 = none ∧
    (convert_html_to_markdown_custom exSimpleDoc "2024-01-01 10:00:01" true
        (fun _ => true)).1 = none ∧
    custom_markdown_content exSimpleDoc "2024-01-01 10:00:00" true (fun _ => true) ≠
      custom_markdown_content exSimpleDoc "2024-01-01 10:00:01" true (fun _ => true) :=
  ⟨rfl, rfl, by decide⟩

/-- C7: the code rule skips any element sitting directly in a pre; otherwise
text with a newline or more than 50 characters becomes a fenced block around
the stripped text, and shorter single-line text becomes inline code. -/
theorem code_rule_skip_and_block_inline_cases (pt : String) (n : Node) :
    (pt = "pre" → code_rule pt n = []) ∧
    (pt ≠ "pre" → ((getText n).toList.contains '\n' = true ∨ (getText n).length > 50) →
      code_rule pt n = ["```", pyStrip (getText n), "```"]) ∧
    (pt ≠ "pre" → (getText n).toList.contains '\n' = false → (getText n).length ≤ 50 →
      code_rule pt n = ["`" ++ pyStrip (getText n) ++ "`"]) := by
  refine ⟨?_, ?_, ?_⟩
  · intro h
    simp [code_rule, h]
  · intro h1 h2
    simp only [code_rule, if_neg h1]
    rw [if_pos h2]
  · intro h1 h2 h3
    have hcond : ¬((getText n).toList.contains '\n' = true ∨ (getText n).length > 50) := by
      rintro (hx | hx)
      · rw [h2] at hx
        exact Bool.false_ne_true hx
      · omega
    simp only [code_rule, if_neg h1]
    rw [if_neg hcond]

/-- Witness for C7: the short single-line code element is skipped under a pre
parent and rendered inline under a div parent. -/
theorem code_rule_skip_and_block_inline_cases_check :
    code_rule "pre" exCodeNode = [] ∧ code_rule "div" exCodeNode = ["`x = 1`"] :=
  ⟨(code_rule_skip_and_block_inline_cases "pre" exCodeNode).1 rfl,
    (code_rule_skip_and_block_inline_cases "div" exCodeNode).2.2 (by decide) (by decide)
      (by decide)⟩

/-- C8: the Image Extractor picks the extension by substring match on the
part before the comma (png, then jpeg/jpg, then svg, defaulting to png),
names the file image_<counter zero-padded to width 3>.<ext>, returns the
relative path images/<filename> on success and none on any failure (no comma,
or a failed decode/write); and a failed extraction leaves the enclosing image
loop's lines and counter untouched while the loop continues with the
remaining images. -/
theorem image_extractor_contract (dec : String → Bool) (url : String) (counter : Nat) :
    (splitFirstComma url.toList = none → extract_base64_image dec url counter = none) ∧
    (∀ h d, splitFirstComma url.toList = some (h, d) →
      extract_base64_image dec url counter =
        if dec (String.mk d) then
          some ("images/" ++ ("image_" ++ pad3 counter ++ "." ++ imageExt (String.mk h)))
        else none) ∧
    (∀ hdr : String,
      (substrOf "png" hdr = true → imageExt hdr = "png") ∧
      (substrOf "png" hdr = false → (substrOf "jpeg" hdr || substrOf "jpg" hdr) = true →
        imageExt hdr = "jpg") ∧
      (substrOf "png" hdr = false → (substrOf "jpeg" hdr || substrOf "jpg" hdr) = false →
        substrOf "svg" hdr = true → imageExt hdr = "svg") ∧
      (substrOf "png" hdr = false → (substrOf "jpeg" hdr || substrOf "jpg" hdr) = false →
        substrOf "svg" hdr = false → imageExt hdr = "png")) ∧
    (∀ (img : Node) (rest : List Node),
      strStartsWith "data:image/" (attrD img "src" "") = true →
      extract_base64_image dec (attrD img "src" "") counter = none →
      handle_images dec true (img :: rest) counter = handle_images dec true rest counter) := by
  refine ⟨?_, ?_, ?_, ?_⟩
  · intro h
    have h' : splitFirstComma url.data = none := h
    simp [extract_base64_image, h']
  · intro h d hsplit
    have hsplit' : splitFirstComma url.data = some (h, d) := hsplit
    simp [extract_base64_image, hsplit']
  · intro hdr
    refine ⟨?_, ?_, ?_, ?_⟩
    · intro h1
      simp [imageExt, h1]
    · intro h1 h2
      simp [imageExt, h1, h2]
    · intro h1 h2 h3
      simp [imageExt, h1, h2, h3]
    · intro h1 h2 h3
      simp [imageExt, h1, h2, h3]
  · intro img rest hsrc hfail
    simp [handle_images, hsrc, hfail]

/-- Witness for C8: a png data URI with a succeeding decode yields the
relative path images/image_000.png, and a comma-free URI fails. -/
theorem image_extractor_contract_check :
    extract_base64_image (fun _ => true) pngDataURI 0 = some "images/image_000.png" ∧
    extract_base64_image (fun _ => true) "malformed-no-comma" 7 = none := by
  constructor
  · have h := (image_extractor_contract (fun _ => true) pngDataURI 0).2.1
      ("data:image/png;base64" : String).toList ("AAAA" : String).toList (by decide)
    rw [h]
    decide
  · exact (image_extractor_contract (fun _ => true) "malformed-no-comma" 7).1 (by decide)

/-- C10: the assembled markdown always starts with the six fixed preamble
lines - the level-1 heading with the document title, a blank line, the italic
exported-on line with the clock reading, a blank line, the horizontal rule
and a blank line - none derived from the cells; and the title text is the
first title element's text, or the fixed fallback when none exists. -/
theorem custom_preamble_prepended (doc : Node) (now : String) (e : Bool)
    (dec : String → Bool) :
    (custom_markdown_lines doc now e dec).take 6 =
      ["# " ++ titleText doc, "", "*Exported on " ++ now ++ "*", "", "---", ""] ∧
    (findAll (tagIs "title") doc = [] → titleText doc = "Notebook Export") ∧
    (∀ t ts, findAll (tagIs "title") doc = t :: ts → titleText doc = getText t) := by
  refine ⟨?_, ?_, ?_⟩
  · simp [custom_markdown_lines, preambleLines, List.take]
  · intro h
    simp [titleText, findFirst, h]
  · intro t ts h
    simp [titleText, findFirst, h]

/-- Witness for C10: a document without a title element gets the fallback
title, and one with a title element gets that element's text. -/
theorem custom_preamble_prepended_check :
    titleText exSimpleDoc = "Notebook Export" ∧
    titleText exNoCellDoc = getText (Node.elem "title" [] [Node.text "T"]) :=
  ⟨(custom_preamble_prepended exSimpleDoc "t" true (fun _ => true)).2.1 rfl,
    (custom_preamble_prepended exNoCellDoc "t" true (fun _ => true)).2.2
      (Node.elem "title" [] [Node.text "T"]) [] rfl⟩

/-- After the first row the index no longer matters: the loop emits exactly
one pipe line per row with cells and nothing for cell-free rows. -/
theorem convert_table_loop_pos (rows : List Node) (i : Nat) (hi : i ≠ 0) :
    convert_table_loop rows i =
      rows.flatMap (fun row =>
        let cells := findAll thtd row
        if cells.isEmpty then [] else [rowLine cells]) := by
  induction rows generalizing i with
  | nil => simp [convert_table_loop]
  | cons row rest ih =>
    have hb : (i == 0) = false := by
      simp [hi]
    by_cases hc : (findAll thtd row).isEmpty
    · simp [convert_table_loop, hc, hb, ih (i + 1) (Nat.succ_ne_zero i)]
    · simp [convert_table_loop, hc, hb, ih (i + 1) (Nat.succ_ne_zero i)]

/-- C6: the Table Renderer emits one pipe line per row with at least one
th/td cell, skips zero-cell rows without emitting a line, and emits a
separator with one dash cell per first-row cell immediately after the first
row's line exactly when the first row contains a th. -/
theorem table_renderer_matches_contract (table : Node) :
    convert_table_to_markdown table = tableRendererSpec table := by
  unfold convert_table_to_markdown tableRendererSpec
  cases hrows : findAll (tagIs "tr") table with
  | nil => simp
  | cons r0 rest =>
    by_cases hc : (findAll thtd r0).isEmpty
    · simp [convert_table_loop, hc, convert_table_loop_pos rest 1 one_ne_zero]
    · by_cases hth : (findAll (tagIs "th") r0).isEmpty
      · simp [convert_table_loop, hc, hth, convert_table_loop_pos rest 1 one_ne_zero]
      · simp [convert_table_loop, hc, hth, convert_table_loop_pos rest 1 one_ne_zero]

/-- Dropping the head preserves the absence of a triple newline. -/
theorem hasTripleNL_cons (x : Char) (l : List Char) (h : hasTripleNL (x :: l) = false) :
    hasTripleNL l = false := by
  match l with
  | [] => rfl
  | [y] => rfl
  | y :: z :: rest =>
    have h' := h
    rw [hasTripleNL] at h'
    rcases Bool.or_eq_false_iff.mp h' with ⟨_, h2⟩
    exact h2

/-- Dropping a prefix preserves the absence of a triple newline. -/
theorem hasTripleNL_append (a b : List Char) (h : hasTripleNL (a ++ b) = false) :
    hasTripleNL b = false := by
  induction a with
  | nil => exact h
  | cons x a' ih => exact ih (hasTripleNL_cons x (a' ++ b) h)

/-- On text without triple newlines, the newline-collapsing scan is the
identity: every pending run it flushes has length at most two. -/
theorem collapseNLAux_of_noTriple (l : List Char) :
    ∀ k, k ≤ 2 → hasTripleNL (List.replicate k '\n' ++ l) = false →
      collapseNLAux k l = List.replicate k '\n' ++ l := by
  induction l with
  | nil =>
    intro k hk _
    simp [collapseNLAux, Nat.min_eq_left hk]
  | cons c cs ih =>
    intro k hk h
    by_cases hc : c = '\n'
    · subst hc
      have heq : List.replicate k '\n' ++ '\n' :: cs = List.replicate (k + 1) '\n' ++ cs := by
        simp [List.replicate_succ', List.append_assoc]
      have hk1 : k + 1 ≤ 2 := by
        rcases Nat.lt_or_ge k 2 with h2 | h2
        · omega
        · exfalso
          have hk2 : k = 2 := Nat.le_antisymm hk h2
          subst hk2
          simp [hasTripleNL] at h
      rw [collapseNLAux, if_pos rfl]
      rw [heq] at h
      rw [ih (k + 1) hk1 h, heq]
    · have hcs : hasTripleNL cs = false :=
        hasTripleNL_cons c cs (hasTripleNL_append (List.replicate k '\n') (c :: cs) h)
      rw [collapseNLAux, if_neg hc, Nat.min_eq_left hk]
      rw [show collapseNLAux 0 cs = List.replicate 0 '\n' ++ cs from
        ih 0 (by omega) (by simpa using hcs)]
      simp

/-- removeFences step 1 wrapper: on text without triple newlines collapseNL
is the identity. -/
theorem collapseNL_of_noTriple (l : List Char) (h : hasTripleNL l = false) :
    collapseNL l = l := by
  have := collapseNLAux_of_noTriple l 0 (by omega) (by simpa using h)
  simpa [collapseNL] using this

/-- When no position of the scan matches the empty-fence pattern, the
fence-removing scan is the identity at every fuel. -/
theorem removeFencesAux_of_noFence :
    ∀ (fuel : Nat) (l : List Char), hasFenceMatch l = false → removeFencesAux fuel l = l := by
  intro fuel
  induction fuel with
  | zero => intro l _; rfl
  | succ f ih =>
    intro l h
    match l with
    | [] => rfl
    | c :: cs =>
      have h' := h
      rw [hasFenceMatch] at h'
      rcases Bool.or_eq_false_iff.mp h' with ⟨h1, h2⟩
      have hm : matchFence (c :: cs) = none := by
        cases hmf : matchFence (c :: cs) with
        | none => rfl
        | some r => rw [hmf] at h1; simp at h1
      rw [removeFencesAux, hm, ih cs h2]

/-- Step 2 wrapper: without an empty-fence match, removeFences is the
identity. -/
theorem removeFences_of_noFence (l : List Char) (h : hasFenceMatch l = false) :
    removeFences l = l :=
  removeFencesAux_of_noFence l.length l h

/-- A successful heading-group match decomposes its input as group followed
by remainder. -/
theorem matchHeadingMark_decomp (l g r : List Char)
    (h : matchHeadingMark l = some (g, r)) : l = g ++ r := by
  unfold matchHeadingMark at h
  by_cases hc : 1 ≤ (l.takeWhile (· = '#')).length ∧ (l.takeWhile (· = '#')).length ≤ 6
  · rw [if_pos hc] at h
    cases hd : l.dropWhile (· = '#') with
    | nil => rw [hd] at h; exact absurd h (by simp)
    | cons c rest =>
      rw [hd] at h
      have h2 : (if wsChar c = true then some (l.takeWhile (· = '#') ++ [c], rest)
          else none) = some (g, r) := h
      by_cases hws : wsChar c = true
      · rw [if_pos hws] at h2
        have hg : l.takeWhile (· = '#') ++ [c] = g ∧ rest = r := by
          have := Option.some.inj h2
          exact ⟨congrArg Prod.fst this, congrArg Prod.snd this⟩
        calc l = l.takeWhile (· = '#') ++ l.dropWhile (· = '#') :=
              (List.takeWhile_append_dropWhile _ l).symm
          _ = l.takeWhile (· = '#') ++ (c :: rest) := by rw [hd]
          _ = (l.takeWhile (· = '#') ++ [c]) ++ rest := by simp
          _ = g ++ r := by rw [hg.1, hg.2]
      · rw [if_neg hws] at h2
        exact absurd h2 (by simp)
  · rw [if_neg hc] at h
    exact absurd h (by simp)

/-- When every newline run the heading rewrite touches has length exactly
two, the heading scan is the identity at every fuel. -/
theorem fixHeadingsAux_of_goodRuns :
    ∀ (fuel : Nat) (l : List Char), badHeadingRunAux fuel l = false → fixHeadingsAux fuel l = l := by
  intro fuel
  induction fuel with
  | zero => intro l _; rfl
  | succ f ih =>
    intro l h
    match l with
    | [] => rfl
    | c :: cs =>
      by_cases hc : c = '\n'
      · subst hc
        cases hm : matchHeadingMark (('\n' :: cs).dropWhile (· = '\n')) with
        | none =>
          rw [badHeadingRunAux, if_pos rfl, hm] at h
          rw [fixHeadingsAux, if_pos rfl, hm, ih cs h]
        | some gr =>
          rw [badHeadingRunAux, if_pos rfl, hm] at h
          have h' : (!(((('\n' :: cs).takeWhile (· = '\n')).length == 2)) ||
              badHeadingRunAux f gr.2) = false := h
          rcases Bool.or_eq_false_iff.mp h' with ⟨hlen, hrest⟩
          have hlen2 : (('\n' :: cs).takeWhile (· = '\n')).length = 2 := by
            simpa using hlen
          have htw : ('\n' :: cs).takeWhile (· = '\n') = ['\n', '\n'] := by
            have hall : ∀ x ∈ ('\n' :: cs).takeWhile (· = '\n'), x = '\n' := by
              intro x hx
              simpa using List.mem_takeWhile_imp hx
            have hrep : ('\n' :: cs).takeWhile (· = '\n') = List.replicate 2 '\n' :=
              List.eq_replicate_iff.mpr ⟨hlen2, hall⟩
            simpa using hrep
          have hdec : ('\n' :: cs).dropWhile (· = '\n') = gr.1 ++ gr.2 :=
            matchHeadingMark_decomp _ gr.1 gr.2 (by rw [hm])
          have hsplit : ('\n' :: cs) = ['\n', '\n'] ++ (gr.1 ++ gr.2) := by
            conv_lhs => rw [← List.takeWhile_append_dropWhile
              (p := fun x => decide (x = '\n')) (l := '\n' :: cs)]
            rw [htw, hdec]
          rw [fixHeadingsAux, if_pos rfl, hm]
          show '\n' :: '\n' :: (gr.1 ++ fixHeadingsAux f gr.2) = '\n' :: cs
          rw [ih gr.2 hrest]
          rw [hsplit]
          simp
      · rw [badHeadingRunAux, if_neg hc] at h
        rw [fixHeadingsAux, if_neg hc, ih cs h]

/-- Step 3 wrapper: when every touched newline run already has length two,
fixHeadings is the identity. -/
theorem fixHeadings_of_goodRuns (l : List Char) (h : badHeadingRun l = false) :
    fixHeadings l = l :=
  fixHeadingsAux_of_goodRuns l.length l h

/-- dropWhile does nothing when the head is not whitespace. -/
theorem dropWhile_of_headNotWS (l : List Char) (h : headNotWS l = true) :
    l.dropWhile wsChar = l := by
  cases l with
  | nil => rfl
  | cons c cs =>
    have hw : wsChar c = false := by
      have h' : (!wsChar c) = true := h
      simpa using h'
    simp [List.dropWhile_cons, hw]

/-- rstrip does nothing when the last character is not whitespace. -/
theorem rstripLine_of_lastNotWS (l : List Char) (h : lastNotWS l = true) :
    rstripLine l = l := by
  have hrev : headNotWS l.reverse = true := by
    unfold headNotWS
    rw [List.head?_reverse]
    exact h
  unfold rstripLine dropTrailing
  rw [dropWhile_of_headNotWS _ hrev, List.reverse_reverse]

/-- The newline split is never the empty list of lines. -/
theorem splitNL_ne_nil (l : List Char) : splitNL l ≠ [] := by
  cases l with
  | nil => simp [splitNL]
  | cons c cs =>
    by_cases hc : c = '\n'
    · simp [splitNL, hc]
    · rw [splitNL, if_neg hc]
      cases hs : splitNL cs <;> simp

/-- Joining the newline split restores the text. -/
theorem joinNL_splitNL (l : List Char) : joinNL (splitNL l) = l := by
  induction l with
  | nil => rfl
  | cons c cs ih =>
    by_cases hc : c = '\n'
    · subst hc
      rw [show splitNL ('\n' :: cs) = [] :: splitNL cs from by rw [splitNL, if_pos rfl]]
      cases hs : splitNL cs with
      | nil => exact absurd hs (splitNL_ne_nil cs)
      | cons p ps =>
        rw [hs] at ih
        rw [joinNL]
        simpa using ih
    · cases hs : splitNL cs with
      | nil => exact absurd hs (splitNL_ne_nil cs)
      | cons p ps =>
        have hsplit : splitNL (c :: cs) = (c :: p) :: ps := by
          rw [splitNL, if_neg hc, hs]
        rw [hsplit]
        rw [hs] at ih
        cases ps with
        | nil =>
          rw [joinNL] at ih ⊢
          rw [ih]
        | cons q qs =>
          rw [joinNL] at ih ⊢
          rw [List.cons_append, ih]

/-- Step 4 wrapper: when no line carries trailing whitespace, the
split-rstrip-join step is the identity. -/
theorem rstripLines_of_noTrailWS (l : List Char) (h : noTrailWS l = true) :
    rstripLines l = l := by
  unfold rstripLines
  have hall : ∀ p ∈ splitNL l, rstripLine p = p := by
    intro p hp
    exact rstripLine_of_lastNotWS p (List.all_eq_true.mp h p hp)
  have hmap : (splitNL l).map rstripLine = splitNL l := by
    calc (splitNL l).map rstripLine = (splitNL l).map id := List.map_congr_left hall
      _ = splitNL l := List.map_id _
  rw [hmap, joinNL_splitNL]

/-- Step 5 wrapper: stripping an already-stripped text is the identity. -/
theorem stripList_of_stripped (l : List Char) (h : isStrippedL l = true) :
    stripList l = l := by
  have h1 : headNotWS l = true ∧ lastNotWS l = true := by
    simpa [isStrippedL] using h
  unfold stripList
  rw [dropWhile_of_headNotWS l h1.1]
  exact rstripLine_of_lastNotWS l h1.2

/-- C4 (amended): clean_markdown is the identity on every normalized text -
one with no three consecutive newlines, no empty-fence match, every newline
run touched by the heading rewrite of length exactly two, no trailing
whitespace on any line and no leading or trailing whitespace - and hence
idempotent on inputs whose normalization lands in that set; full idempotence
fails (see the counterexample). -/
theorem clean_markdown_fixes_normal_forms (x : String)
    (h1 : hasTripleNL x.toList = false)
    (h2 : hasFenceMatch x.toList = false)
    (h3 : badHeadingRun x.toList = false)
    (h4 : noTrailWS x.toList = true)
    (h5 : isStrippedL x.toList = true) :
    clean_markdown x = x := by
  unfold clean_markdown
  rw [collapseNL_of_noTriple _ h1, removeFences_of_noFence _ h2,
    fixHeadings_of_goodRuns _ h3, rstripLines_of_noTrailWS _ h4,
    stripList_of_stripped _ h5]
  rfl

/-- Counterexample for C4: right-stripping the whitespace-only lines of this
text creates a fresh three-newline run, so a second normalization pass
collapses what the first left behind. -/
theorem clean_markdown_not_idempotent_cx :
    clean_markdown (clean_markdown "a\n \n \nb") ≠ clean_markdown "a\n \n \nb" := by
  decide

/-- Witness for the amended C4: a normalized text satisfying all five
conditions is fixed by clean_markdown. -/
theorem clean_markdown_fixes_normal_forms_check :
    (hasTripleNL ("# T\n\nhello" : String).toList = false ∧
      hasFenceMatch ("# T\n\nhello" : String).toList = false ∧
      badHeadingRun ("# T\n\nhello" : String).toList = false ∧
      noTrailWS ("# T\n\nhello" : String).toList = true ∧
      isStrippedL ("# T\n\nhello" : String).toList = true) ∧
    clean_markdown "# T\n\nhello" = "# T\n\nhello" :=
  ⟨⟨by decide, by decide, by decide, by decide, by decide⟩,
    clean_markdown_fixes_normal_forms "# T\n\nhello" (by decide) (by decide) (by decide)
      (by decide) (by decide)⟩
